import Mathlib

/-!
# Verification of the card-proxy PDF layout engine (`src/proxy.py`)

This file gives a shallow embedding of the layout-and-render core of the
repository, the function `create_pdf` (proxy.py lines 30-94) together with its
two drawing helpers `draw_image` (lines 21-22) and `fill_rect` (lines 25-27)
and the GUI option coupling `CardProxyApp.update_options` (lines 222-227).

Physical lengths are modelled as rationals (`ℚ`); the drawing backend is
modelled as the list of drawing events (`Ev`) that `create_pdf` issues to it,
in order: image draws, filled rectangles (guidelines) and page commits
(`showPage`).  Image resources are opaque to the core and are modelled as
natural-number identifiers.  Copy counts are natural numbers; Python's
`[image] * qty` yields `List.replicate qty image` (empty for `qty = 0`).
-/

namespace Proxy

/-- One millimetre in points, as defined by the drawing toolkit
(72 points per inch, 25.4 mm per inch): `mm = 72 / 25.4`. -/
def mm : ℚ := 72 / 25.4

/-- The A4 page size constant of the drawing toolkit: 210mm × 297mm. -/
def A4 : ℚ × ℚ := (210 * mm, 297 * mm)

/-- The A3 page size constant of the drawing toolkit: 297mm × 420mm. -/
def A3 : ℚ × ℚ := (297 * mm, 420 * mm)

/-- `portrait` of the drawing toolkit: shorter dimension first. -/
def portrait (p : ℚ × ℚ) : ℚ × ℚ := (min p.1 p.2, max p.1 p.2)

/-- `landscape` of the drawing toolkit: longer dimension first. -/
def landscape (p : ℚ × ℚ) : ℚ × ℚ := (max p.1 p.2, min p.1 p.2)

/-- A drawing-backend event, in the order `create_pdf` issues them:
drawing an image, filling a rectangle, or committing the current page.
Coordinates are the backend's bottom-left-origin coordinates exactly as
passed to `canvas.drawImage` / `canvas.rect`. -/
inductive Ev where
  | image (img : ℕ) (x y w h : ℚ)
  | rect (x y w h : ℚ)
  | showPage
deriving DecidableEq

/-- `draw_image` (proxy.py lines 21-22): draw an image given a
top-left-origin rectangle `(x, y, w, h)`; the call passed to the backend is
`drawImage(image, x, page_size[1] - y - h, w, h)`. -/
def draw_image (ps : ℚ × ℚ) (image : ℕ) (x y w h : ℚ) : Ev :=
  Ev.image image x (ps.2 - y - h) w h

/-- `fill_rect` (proxy.py lines 25-27): fill a rectangle given a
top-left-origin rectangle `(x, y, w, h)`; the call passed to the backend is
`rect(x, page_size[1] - y - h, w, h, fill=True)`. -/
def fill_rect (ps : ℚ × ℚ) (x y w h : ℚ) : Ev :=
  Ev.rect x (ps.2 - y - h) w h

/-- `x_start` (proxy.py line 60): the placement origin x, the page's left edge. -/
def x_start : ℚ := 0

/-- `y_start` (proxy.py line 61): the placement origin y, the page's top edge. -/
def y_start : ℚ := 0

/-- Line 32-35 of proxy.py: page size selection — `landscape(A3)` when the
page option is the string `"A3"`, otherwise `portrait(A4)`. -/
def pageSizeOf (page_option : String) : ℚ × ℚ :=
  if page_option = "A3" then landscape A3 else portrait A4

/-- Lines 37-46 of proxy.py: card size selection.  Standard mode gives
63.5mm × 88.9mm; the custom mode uses the provided size (in mm), falling back
to the standard size when no custom size is given; any other mode string also
falls back to the standard size. -/
def cardSize (card_size_mode : String) (custom_card_size : Option (ℚ × ℚ)) : ℚ × ℚ :=
  if card_size_mode = "標準サイズ" then (63.5 * mm, 88.9 * mm)
  else if card_size_mode = "任意のサイズ" then
    match custom_card_size with
    | some (w, h) => (w * mm, h * mm)
    | none => (63.5 * mm, 88.9 * mm)
  else (63.5 * mm, 88.9 * mm)

/-- Lines 48-50 of proxy.py: the inter-card gap is `0 * mm` when the margin is
removed and `1 * mm` otherwise (used for both the horizontal and the vertical
gap). -/
def gapOf (remove_margin : Bool) : ℚ :=
  if remove_margin then 0 else mm

/-- `grid_x` (proxy.py lines 53 and 55): the number of card columns,
`int((W + h_gap) // (card_width + h_gap))` clamped below by 1. -/
def grid_x (W cw hGap : ℚ) : ℤ :=
  let g := ⌊(W + hGap) / (cw + hGap)⌋
  if g < 1 then 1 else g

/-- `grid_y` (proxy.py lines 54 and 56): the number of card rows,
`int((H + v_gap) // (card_height + v_gap))` clamped below by 1. -/
def grid_y (H ch vGap : ℚ) : ℤ :=
  let g := ⌊(H + vGap) / (ch + vGap)⌋
  if g < 1 then 1 else g

/-- The static geometry `create_pdf` computes once before its main loop
(page size, card size, gaps, grid dimensions, guideline flag). -/
structure Layout where
  ps : ℚ × ℚ
  cw : ℚ
  ch : ℚ
  hGap : ℚ
  vGap : ℚ
  gx : ℕ
  gy : ℕ
  dg : Bool
deriving DecidableEq

/-- `total_per_page` (proxy.py line 57): slots per page. -/
def Layout.tpp (L : Layout) : ℕ := L.gx * L.gy

/-- The vertical guideline loop (proxy.py lines 80-85): for `col` in
`0..grid_x` inclusive, fill a rectangle of width `h_gap` and full page height
at `x_line = x_start` for `col = 0` and
`x_line = x_start + col * (card_width + h_gap) - h_gap` otherwise. -/
def vertGuidelines (ps : ℚ × ℚ) (cw hGap : ℚ) (gx : ℕ) : List Ev :=
  (List.range (gx + 1)).map fun (col : ℕ) =>
    fill_rect ps (if col = 0 then x_start else x_start + (col : ℚ) * (cw + hGap) - hGap)
      0 hGap ps.2

/-- The horizontal guideline loop (proxy.py lines 87-92): for `row` in
`0..grid_y` inclusive, fill a rectangle of full page width and height `v_gap`
at `y_line = y_start` for `row = 0` and
`y_line = y_start + row * (card_height + v_gap) - v_gap` otherwise. -/
def horizGuidelines (ps : ℚ × ℚ) (ch vGap : ℚ) (gy : ℕ) : List Ev :=
  (List.range (gy + 1)).map fun (row : ℕ) =>
    fill_rect ps 0 (if row = 0 then y_start else y_start + (row : ℚ) * (ch + vGap) - vGap)
      ps.1 vGap

/-- One iteration of the main loop of `create_pdf` (proxy.py lines 68-93) at
global index `i` for image `image`: draw the image at its slot; then, if the
slot is the last of a page or `i` is the last index overall, draw the
guidelines (when the flag is set) and commit the page. -/
def stepEvents (L : Layout) (total i image : ℕ) : List Ev :=
  let pageIndex := i % L.tpp
  let col := pageIndex % L.gx
  let row := pageIndex / L.gx
  let x := x_start + (col : ℚ) * (L.cw + L.hGap)
  let y := y_start + (row : ℚ) * (L.ch + L.vGap)
  draw_image L.ps image x y L.cw L.ch ::
    (if pageIndex = L.tpp - 1 ∨ i = total - 1 then
      (if L.dg then
        vertGuidelines L.ps L.cw L.hGap L.gx ++ horizGuidelines L.ps L.ch L.vGap L.gy
      else []) ++ [Ev.showPage]
    else [])

/-- The main loop of `create_pdf` (`for i, image in enumerate(images)`),
with `i` the running global index. -/
def renderLoop (L : Layout) (total : ℕ) : ℕ → List ℕ → List Ev
  | _, [] => []
  | i, image :: rest => stepEvents L total i image ++ renderLoop L total (i + 1) rest

/-- Lines 64-66 of proxy.py: flatten the `(image, qty)` list by
`images.extend([image] * qty)`. -/
def flattenItems : List (ℕ × ℕ) → List ℕ
  | [] => []
  | (image, qty) :: rest => List.replicate qty image ++ flattenItems rest

/-- The static geometry computed by `create_pdf` (proxy.py lines 31-57)
from its arguments. -/
def layoutOf (page_option : String) (draw_guidelines remove_margin : Bool)
    (card_size_mode : String) (custom_card_size : Option (ℚ × ℚ)) : Layout :=
  { ps := pageSizeOf page_option
    cw := (cardSize card_size_mode custom_card_size).1
    ch := (cardSize card_size_mode custom_card_size).2
    hGap := gapOf remove_margin
    vGap := gapOf remove_margin
    gx := (grid_x (pageSizeOf page_option).1 (cardSize card_size_mode custom_card_size).1
      (gapOf remove_margin)).toNat
    gy := (grid_y (pageSizeOf page_option).2 (cardSize card_size_mode custom_card_size).2
      (gapOf remove_margin)).toNat
    dg := draw_guidelines }

/-- `create_pdf` (proxy.py lines 30-94), modelled as the list of drawing
events it issues to the backend canvas (the output file name plays no role in
the geometry and is omitted). -/
def create_pdf (image_quantity_list : List (ℕ × ℕ)) (page_option : String)
    (draw_guidelines remove_margin : Bool) (card_size_mode : String)
    (custom_card_size : Option (ℚ × ℚ)) : List Ev :=
  let L := layoutOf page_option draw_guidelines remove_margin card_size_mode custom_card_size
  let images := flattenItems image_quantity_list
  renderLoop L images.length 0 images

/-- `CardProxyApp.update_options` (proxy.py lines 222-227): when the
remove-margin checkbox is checked, the guidelines checkbox is forced to
unchecked (and disabled); otherwise its state is kept.  Returns the
resulting checked state of the guidelines checkbox. -/
def update_options (margin_checked guidelines_checked : Bool) : Bool :=
  if margin_checked then false else guidelines_checked

/-! ## Observations on the event trace -/

/-- Whether an event is a page commit. -/
def isShowPage : Ev → Bool
  | Ev.showPage => true
  | _ => false

/-- Whether an event is a filled rectangle (a guideline draw). -/
def isRectEv : Ev → Bool
  | Ev.rect _ _ _ _ => true
  | _ => false

/-- Number of committed pages in a trace. -/
def showPageCount (l : List Ev) : ℕ := l.countP isShowPage

/-- Number of filled rectangles (guideline draws) in a trace. -/
def rectCount (l : List Ev) : ℕ := l.countP isRectEv

/-- The images drawn by a trace, in order. -/
def drawnImages (l : List Ev) : List ℕ :=
  l.filterMap fun e =>
    match e with
    | Ev.image img _ _ _ _ => some img
    | _ => none

/-- One image placement as observed in the trace: the page it lands on
(number of committed pages preceding its draw call) and the backend
rectangle of its draw call. -/
structure Placed where
  page : ℕ
  img : ℕ
  x : ℚ
  y : ℚ
  w : ℚ
  h : ℚ
deriving DecidableEq

/-- All image placements of a trace, pairing every image draw with the
number of page commits that precede it (starting from `p`). -/
def imagePlacements (p : ℕ) : List Ev → List Placed
  | [] => []
  | Ev.image img x y w h :: rest => ⟨p, img, x, y, w, h⟩ :: imagePlacements p rest
  | Ev.rect _ _ _ _ :: rest => imagePlacements p rest
  | Ev.showPage :: rest => imagePlacements (p + 1) rest

/-- The placement the main loop produces at global index `i`: page
`i / tpp`, column `i % tpp % gx`, row `i % tpp / gx`, top-left corner
`(col * (cw + hGap), row * (ch + vGap))` converted to the backend's
bottom-left origin. -/
def placedAt (L : Layout) (i image : ℕ) : Placed :=
  ⟨i / L.tpp, image,
    (↑(i % L.tpp % L.gx) : ℚ) * (L.cw + L.hGap),
    L.ps.2 - (↑(i % L.tpp / L.gx) : ℚ) * (L.ch + L.vGap) - L.ch,
    L.cw, L.ch⟩

/-- The top-left-origin to bottom-left-origin conversion described by the
spec: a rectangle with top edge at `y` and height `h` on a page of height
`pageH` has its bottom edge at `pageH - y - h`. -/
def topLeftToBottom (pageH y h : ℚ) : ℚ := pageH - y - h

/-! ## Basic lemmas -/

@[simp]
lemma isShowPage_image_ev (img : ℕ) (x y w h : ℚ) :
    isShowPage (Ev.image img x y w h) = false := rfl

@[simp]
lemma isShowPage_rect_ev (x y w h : ℚ) : isShowPage (Ev.rect x y w h) = false := rfl

@[simp]
lemma isShowPage_showPage_ev : isShowPage Ev.showPage = true := rfl

@[simp]
lemma isRectEv_image_ev (img : ℕ) (x y w h : ℚ) :
    isRectEv (Ev.image img x y w h) = false := rfl

@[simp]
lemma isRectEv_rect_ev (x y w h : ℚ) : isRectEv (Ev.rect x y w h) = true := rfl

@[simp]
lemma isRectEv_showPage_ev : isRectEv Ev.showPage = false := rfl

@[simp]
lemma isShowPage_fill_rect (ps : ℚ × ℚ) (x y w h : ℚ) :
    isShowPage (fill_rect ps x y w h) = false := rfl

@[simp]
lemma isRectEv_fill_rect (ps : ℚ × ℚ) (x y w h : ℚ) :
    isRectEv (fill_rect ps x y w h) = true := rfl

@[simp]
lemma isShowPage_draw_image (ps : ℚ × ℚ) (img : ℕ) (x y w h : ℚ) :
    isShowPage (draw_image ps img x y w h) = false := rfl

@[simp]
lemma isRectEv_draw_image (ps : ℚ × ℚ) (img : ℕ) (x y w h : ℚ) :
    isRectEv (draw_image ps img x y w h) = false := rfl

lemma grid_x_ge_one (W cw hGap : ℚ) : 1 ≤ grid_x W cw hGap := by
  simp only [grid_x]
  split <;> omega

lemma grid_y_ge_one (H ch vGap : ℚ) : 1 ≤ grid_y H ch vGap := by
  simp only [grid_y]
  split <;> omega

lemma layoutOf_gx_pos (po : String) (dg rm : Bool) (mode : String)
    (cs : Option (ℚ × ℚ)) : 1 ≤ (layoutOf po dg rm mode cs).gx := by
  have := grid_x_ge_one (pageSizeOf po).1 (cardSize mode cs).1 (gapOf rm)
  simp only [layoutOf]
  omega

lemma layoutOf_gy_pos (po : String) (dg rm : Bool) (mode : String)
    (cs : Option (ℚ × ℚ)) : 1 ≤ (layoutOf po dg rm mode cs).gy := by
  have := grid_y_ge_one (pageSizeOf po).2 (cardSize mode cs).2 (gapOf rm)
  simp only [layoutOf]
  omega

lemma layoutOf_tpp_pos (po : String) (dg rm : Bool) (mode : String)
    (cs : Option (ℚ × ℚ)) : 1 ≤ (layoutOf po dg rm mode cs).tpp := by
  have h1 := layoutOf_gx_pos po dg rm mode cs
  have h2 := layoutOf_gy_pos po dg rm mode cs
  unfold Layout.tpp
  exact Nat.one_le_iff_ne_zero.mpr (Nat.mul_ne_zero (by omega) (by omega))

lemma mem_vertGuidelines_isRect (ps : ℚ × ℚ) (cw hGap : ℚ) (gx : ℕ) :
    ∀ e ∈ vertGuidelines ps cw hGap gx, isRectEv e = true := by
  intro e he
  simp only [vertGuidelines, List.mem_map, List.mem_range] at he
  obtain ⟨c, -, rfl⟩ := he
  rfl

lemma mem_horizGuidelines_isRect (ps : ℚ × ℚ) (ch vGap : ℚ) (gy : ℕ) :
    ∀ e ∈ horizGuidelines ps ch vGap gy, isRectEv e = true := by
  intro e he
  simp only [horizGuidelines, List.mem_map, List.mem_range] at he
  obtain ⟨c, -, rfl⟩ := he
  rfl

lemma showPageCount_of_rects (l : List Ev) (h : ∀ e ∈ l, isRectEv e = true) :
    showPageCount l = 0 := by
  rw [showPageCount, List.countP_eq_zero]
  intro e he
  have := h e he
  cases e <;> simp_all [isRectEv, isShowPage]

lemma drawnImages_of_rects (l : List Ev) (h : ∀ e ∈ l, isRectEv e = true) :
    drawnImages l = [] := by
  rw [drawnImages, List.filterMap_eq_nil_iff]
  intro e he
  have := h e he
  cases e <;> simp_all [isRectEv]

lemma rectCount_of_rects (l : List Ev) (h : ∀ e ∈ l, isRectEv e = true) :
    rectCount l = l.length := by
  rw [rectCount, List.countP_eq_length]
  exact h

lemma imagePlacements_rects_append (p : ℕ) (l₁ l₂ : List Ev)
    (h : ∀ e ∈ l₁, isRectEv e = true) :
    imagePlacements p (l₁ ++ l₂) = imagePlacements p l₂ := by
  induction l₁ with
  | nil => simp
  | cons e t ih =>
    have he := h e (List.mem_cons_self _ _)
    cases e with
    | rect x y w h' =>
      simpa [imagePlacements] using ih fun e' he' => h e' (List.mem_cons_of_mem _ he')
    | image img x y w h' => simp [isRectEv] at he
    | showPage => simp [isRectEv] at he

@[simp]
lemma showPageCount_append (l₁ l₂ : List Ev) :
    showPageCount (l₁ ++ l₂) = showPageCount l₁ + showPageCount l₂ :=
  List.countP_append _ _ _

@[simp]
lemma rectCount_append (l₁ l₂ : List Ev) :
    rectCount (l₁ ++ l₂) = rectCount l₁ + rectCount l₂ :=
  List.countP_append _ _ _

@[simp]
lemma drawnImages_append (l₁ l₂ : List Ev) :
    drawnImages (l₁ ++ l₂) = drawnImages l₁ ++ drawnImages l₂ :=
  List.filterMap_append _ _ _

lemma vertGuidelines_length (ps : ℚ × ℚ) (cw hGap : ℚ) (gx : ℕ) :
    (vertGuidelines ps cw hGap gx).length = gx + 1 := by
  rw [vertGuidelines, List.length_map, List.length_range]

lemma horizGuidelines_length (ps : ℚ × ℚ) (ch vGap : ℚ) (gy : ℕ) :
    (horizGuidelines ps ch vGap gy).length = gy + 1 := by
  rw [horizGuidelines, List.length_map, List.length_range]

lemma flattenItems_length (items : List (ℕ × ℕ)) :
    (flattenItems items).length = (items.map fun p => p.2).sum := by
  induction items with
  | nil => rfl
  | cons a rest ih => simp [flattenItems, ih]

lemma flattenItems_eq_flatMap (items : List (ℕ × ℕ)) :
    flattenItems items = items.flatMap fun p => List.replicate p.2 p.1 := by
  induction items with
  | nil => rfl
  | cons a rest ih => simp [flattenItems, ih]

/-! ## Arithmetic of the running page index -/

lemma succ_div_of_mod_eq (t i : ℕ) (ht : 1 ≤ t) (h : i % t = t - 1) :
    (i + 1) / t = i / t + 1 := by
  have h2 := Nat.div_add_mod i t
  have h4 : t * (i / t + 1) = t * (i / t) + t := by ring
  have h3 : i + 1 = t * (i / t + 1) := by rw [h4]; omega
  rw [h3, Nat.mul_div_cancel_left _ (by omega : 0 < t)]

lemma succ_div_of_mod_ne (t i : ℕ) (ht : 1 ≤ t) (h : i % t ≠ t - 1) :
    (i + 1) / t = i / t := by
  have h2 := Nat.div_add_mod i t
  have hlt : i % t < t := Nat.mod_lt _ (by omega)
  have h3 : i + 1 = t * (i / t) + (i % t + 1) := by omega
  rw [h3, Nat.mul_add_div (by omega : 0 < t),
    Nat.div_eq_of_lt (by omega : i % t + 1 < t)]
  omega

@[simp]
lemma imagePlacements_nil (p : ℕ) : imagePlacements p [] = [] := rfl

@[simp]
lemma imagePlacements_cons_image (p img : ℕ) (x y w h : ℚ) (l : List Ev) :
    imagePlacements p (Ev.image img x y w h :: l)
      = ⟨p, img, x, y, w, h⟩ :: imagePlacements p l := rfl

@[simp]
lemma imagePlacements_cons_rect (p : ℕ) (x y w h : ℚ) (l : List Ev) :
    imagePlacements p (Ev.rect x y w h :: l) = imagePlacements p l := rfl

@[simp]
lemma imagePlacements_cons_showPage (p : ℕ) (l : List Ev) :
    imagePlacements p (Ev.showPage :: l) = imagePlacements (p + 1) l := rfl

@[simp]
lemma showPageCount_nil : showPageCount [] = 0 := rfl

@[simp]
lemma showPageCount_cons (e : Ev) (l : List Ev) :
    showPageCount (e :: l) = showPageCount l + if isShowPage e then 1 else 0 :=
  List.countP_cons _ _ _

@[simp]
lemma rectCount_nil : rectCount [] = 0 := rfl

@[simp]
lemma rectCount_cons (e : Ev) (l : List Ev) :
    rectCount (e :: l) = rectCount l + if isRectEv e then 1 else 0 :=
  List.countP_cons _ _ _

@[simp]
lemma drawnImages_nil : drawnImages [] = [] := rfl

@[simp]
lemma drawnImages_cons_image (img : ℕ) (x y w h : ℚ) (l : List Ev) :
    drawnImages (Ev.image img x y w h :: l) = img :: drawnImages l := rfl

@[simp]
lemma drawnImages_cons_rect (x y w h : ℚ) (l : List Ev) :
    drawnImages (Ev.rect x y w h :: l) = drawnImages l := rfl

@[simp]
lemma drawnImages_cons_showPage (l : List Ev) :
    drawnImages (Ev.showPage :: l) = drawnImages l := rfl

@[simp]
lemma showPageCount_vertGuidelines (ps : ℚ × ℚ) (cw hGap : ℚ) (gx : ℕ) :
    showPageCount (vertGuidelines ps cw hGap gx) = 0 :=
  showPageCount_of_rects _ (mem_vertGuidelines_isRect ps cw hGap gx)

@[simp]
lemma showPageCount_horizGuidelines (ps : ℚ × ℚ) (ch vGap : ℚ) (gy : ℕ) :
    showPageCount (horizGuidelines ps ch vGap gy) = 0 :=
  showPageCount_of_rects _ (mem_horizGuidelines_isRect ps ch vGap gy)

@[simp]
lemma rectCount_vertGuidelines (ps : ℚ × ℚ) (cw hGap : ℚ) (gx : ℕ) :
    rectCount (vertGuidelines ps cw hGap gx) = gx + 1 := by
  rw [rectCount_of_rects _ (mem_vertGuidelines_isRect ps cw hGap gx), vertGuidelines_length]

@[simp]
lemma rectCount_horizGuidelines (ps : ℚ × ℚ) (ch vGap : ℚ) (gy : ℕ) :
    rectCount (horizGuidelines ps ch vGap gy) = gy + 1 := by
  rw [rectCount_of_rects _ (mem_horizGuidelines_isRect ps ch vGap gy), horizGuidelines_length]

@[simp]
lemma drawnImages_vertGuidelines (ps : ℚ × ℚ) (cw hGap : ℚ) (gx : ℕ) :
    drawnImages (vertGuidelines ps cw hGap gx) = [] :=
  drawnImages_of_rects _ (mem_vertGuidelines_isRect ps cw hGap gx)

@[simp]
lemma drawnImages_horizGuidelines (ps : ℚ × ℚ) (ch vGap : ℚ) (gy : ℕ) :
    drawnImages (horizGuidelines ps ch vGap gy) = [] :=
  drawnImages_of_rects _ (mem_horizGuidelines_isRect ps ch vGap gy)

lemma showPageCount_guidelines (ps : ℚ × ℚ) (cw ch hGap vGap : ℚ) (gx gy : ℕ) :
    showPageCount (vertGuidelines ps cw hGap gx ++ horizGuidelines ps ch vGap gy) = 0 := by
  rw [showPageCount_append,
    showPageCount_of_rects _ (mem_vertGuidelines_isRect ps cw hGap gx),
    showPageCount_of_rects _ (mem_horizGuidelines_isRect ps ch vGap gy)]

lemma rectCount_guidelines (ps : ℚ × ℚ) (cw ch hGap vGap : ℚ) (gx gy : ℕ) :
    rectCount (vertGuidelines ps cw hGap gx ++ horizGuidelines ps ch vGap gy)
      = (gx + 1) + (gy + 1) := by
  rw [rectCount_append,
    rectCount_of_rects _ (mem_vertGuidelines_isRect ps cw hGap gx),
    rectCount_of_rects _ (mem_horizGuidelines_isRect ps ch vGap gy),
    vertGuidelines_length, horizGuidelines_length]

lemma drawnImages_guidelines (ps : ℚ × ℚ) (cw ch hGap vGap : ℚ) (gx gy : ℕ) :
    drawnImages (vertGuidelines ps cw hGap gx ++ horizGuidelines ps ch vGap gy) = [] := by
  rw [drawnImages_append,
    drawnImages_of_rects _ (mem_vertGuidelines_isRect ps cw hGap gx),
    drawnImages_of_rects _ (mem_horizGuidelines_isRect ps ch vGap gy),
    List.append_nil]

/-! ## Per-step observations -/

lemma showPageCount_stepEvents (L : Layout) (total i image : ℕ) :
    showPageCount (stepEvents L total i image)
      = if i % L.tpp = L.tpp - 1 ∨ i = total - 1 then 1 else 0 := by
  simp only [stepEvents]
  by_cases hb : i % L.tpp = L.tpp - 1 ∨ i = total - 1
  · rw [if_pos hb, if_pos hb]
    by_cases hd : L.dg
    · simp [hd]
    · simp [hd]
  · rw [if_neg hb, if_neg hb]
    simp

lemma rectCount_stepEvents (L : Layout) (total i image : ℕ) :
    rectCount (stepEvents L total i image)
      = if i % L.tpp = L.tpp - 1 ∨ i = total - 1 then
          (if L.dg then (L.gx + 1) + (L.gy + 1) else 0)
        else 0 := by
  simp only [stepEvents]
  by_cases hb : i % L.tpp = L.tpp - 1 ∨ i = total - 1
  · rw [if_pos hb, if_pos hb]
    by_cases hd : L.dg
    · simp [hd]
    · simp [hd]
  · rw [if_neg hb, if_neg hb]
    simp

lemma drawnImages_stepEvents (L : Layout) (total i image : ℕ) :
    drawnImages (stepEvents L total i image) = [image] := by
  simp only [stepEvents]
  by_cases hb : i % L.tpp = L.tpp - 1 ∨ i = total - 1
  · rw [if_pos hb]
    by_cases hd : L.dg
    · simp [hd, draw_image]
    · simp [hd, draw_image]
  · rw [if_neg hb]
    simp [draw_image]

/-! ## Whole-loop observations -/

lemma drawnImages_renderLoop (L : Layout) (total : ℕ) :
    ∀ (imgs : List ℕ) (i : ℕ), drawnImages (renderLoop L total i imgs) = imgs := by
  intro imgs
  induction imgs with
  | nil => intro i; rfl
  | cons image rest ih =>
    intro i
    rw [renderLoop, drawnImages_append, drawnImages_stepEvents, ih]
    rfl

lemma rectCount_renderLoop_dg (L : Layout) (hdg : L.dg = true) (total : ℕ) :
    ∀ (imgs : List ℕ) (i : ℕ),
      rectCount (renderLoop L total i imgs)
        = ((L.gx + 1) + (L.gy + 1)) * showPageCount (renderLoop L total i imgs) := by
  intro imgs
  induction imgs with
  | nil => intro i; rfl
  | cons image rest ih =>
    intro i
    rw [renderLoop, rectCount_append, showPageCount_append, rectCount_stepEvents,
      showPageCount_stepEvents, ih, hdg, Nat.mul_add]
    by_cases hb : i % L.tpp = L.tpp - 1 ∨ i = total - 1
    · simp [hb]
    · simp [hb]

lemma rectCount_renderLoop_nodg (L : Layout) (hdg : L.dg = false) (total : ℕ) :
    ∀ (imgs : List ℕ) (i : ℕ), rectCount (renderLoop L total i imgs) = 0 := by
  intro imgs
  induction imgs with
  | nil => intro i; rfl
  | cons image rest ih =>
    intro i
    rw [renderLoop, rectCount_append, rectCount_stepEvents, ih, hdg]
    by_cases hb : i % L.tpp = L.tpp - 1 ∨ i = total - 1
    · simp [hb]
    · simp [hb]

/-- The image placements emitted by the main loop starting at global index
`i` with `i / tpp` pages already committed: each remaining image `imgs[k]`
is placed according to `placedAt` at global index `i + k`. -/
lemma imagePlacements_renderLoop (L : Layout) (ht : 1 ≤ L.tpp) :
    ∀ (imgs : List ℕ) (i total : ℕ), i + imgs.length = total →
      imagePlacements (i / L.tpp) (renderLoop L total i imgs)
        = (List.enumFrom i imgs).map fun p => placedAt L p.1 p.2 := by
  intro imgs
  induction imgs with
  | nil => intro i total _; simp [renderLoop]
  | cons image rest ih =>
    intro i total htot
    rw [renderLoop]
    simp only [stepEvents, draw_image, List.cons_append, imagePlacements_cons_image,
      List.enumFrom_cons, List.map_cons]
    congr 1
    · simp [placedAt, x_start, y_start]
    · by_cases hb : i % L.tpp = L.tpp - 1 ∨ i = total - 1
      · rw [if_pos hb, List.append_assoc,
          imagePlacements_rects_append _ _ _ (by
            split
            · intro e he
              rcases List.mem_append.1 he with he | he
              · exact mem_vertGuidelines_isRect _ _ _ _ e he
              · exact mem_horizGuidelines_isRect _ _ _ _ e he
            · intro e he
              simp at he)]
        simp only [List.singleton_append, imagePlacements_cons_showPage]
        cases rest with
        | nil =>
          simp [renderLoop]
        | cons b rest2 =>
          have hi : i ≠ total - 1 := by
            simp only [List.length_cons] at htot
            omega
          have hmod : i % L.tpp = L.tpp - 1 := hb.resolve_right hi
          rw [← succ_div_of_mod_eq L.tpp i ht hmod]
          exact ih (i + 1) total (by simp only [List.length_cons] at htot ⊢; omega)
      · rw [if_neg hb, List.nil_append]
        have hmod : i % L.tpp ≠ L.tpp - 1 := fun h => hb (Or.inl h)
        rw [show i / L.tpp = (i + 1) / L.tpp from (succ_div_of_mod_ne L.tpp i ht hmod).symm]
        exact ih (i + 1) total (by simp only [List.length_cons] at htot ⊢; omega)

/-- Number of page commits of the main loop from global index `i` on, when
`i / tpp` pages were already committed: the remaining commits bring the
overall total to `⌈total / tpp⌉`. -/
lemma showPageCount_renderLoop (L : Layout) (ht : 1 ≤ L.tpp) :
    ∀ (imgs : List ℕ) (i total : ℕ), i + imgs.length = total →
      showPageCount (renderLoop L total i imgs)
        = (if imgs = [] then 0 else (total + L.tpp - 1) / L.tpp - i / L.tpp) := by
  intro imgs
  induction imgs with
  | nil => intro i total _; simp [renderLoop]
  | cons image rest ih =>
    intro i total htot
    rw [renderLoop, showPageCount_append, showPageCount_stepEvents,
      ih (i + 1) total (by simp only [List.length_cons] at htot ⊢; omega)]
    simp only [List.length_cons] at htot
    by_cases hr : rest = []
    · subst hr
      simp only [List.length_nil] at htot
      have hC : (total + L.tpp - 1) / L.tpp = i / L.tpp + 1 := by
        rw [show total + L.tpp - 1 = i + L.tpp by omega, Nat.add_div_right _ (by omega)]
      rw [if_pos (Or.inr (by omega)), if_pos rfl, hC]
      simp
    · have hi : i ≠ total - 1 := by
        have : 1 ≤ rest.length := List.length_pos.2 hr
        omega
      have hle : (i + 1) / L.tpp ≤ (total + L.tpp - 1) / L.tpp :=
        Nat.div_le_div_right (by
          have : 1 ≤ rest.length := List.length_pos.2 hr
          omega)
      rw [if_neg hr, if_neg (by simp : ¬(image :: rest = []))]
      by_cases hm : i % L.tpp = L.tpp - 1
      · have hsucc := succ_div_of_mod_eq L.tpp i ht hm
        rw [if_pos (Or.inl hm)]
        omega
      · have hsucc := succ_div_of_mod_ne L.tpp i ht hm
        rw [if_neg (by tauto)]
        omega

/-- The page commits of the main loop happen exactly at the page-boundary
indices: the last slot of a page or the last global index of the run. -/
lemma showPageCount_renderLoop_boundary (L : Layout) (total : ℕ) :
    ∀ (imgs : List ℕ) (i : ℕ),
      showPageCount (renderLoop L total i imgs)
        = (List.enumFrom i imgs).countP
            (fun p => decide (p.1 % L.tpp = L.tpp - 1 ∨ p.1 = total - 1)) := by
  intro imgs
  induction imgs with
  | nil => intro i; rfl
  | cons image rest ih =>
    intro i
    rw [renderLoop, showPageCount_append, showPageCount_stepEvents, ih (i + 1)]
    simp only [List.enumFrom_cons, List.countP_cons]
    by_cases hb : i % L.tpp = L.tpp - 1 ∨ i = total - 1
    · simp [hb]
      omega
    · simp [hb]

/-- Every filled rectangle the main loop issues has either the horizontal
gap as its width or the vertical gap as its height. -/
lemma rect_mem_renderLoop (L : Layout) (total : ℕ) (x y w h : ℚ) :
    ∀ (imgs : List ℕ) (i : ℕ), Ev.rect x y w h ∈ renderLoop L total i imgs →
      w = L.hGap ∨ h = L.vGap := by
  intro imgs
  induction imgs with
  | nil => intro i hm; simp [renderLoop] at hm
  | cons image rest ih =>
    intro i hm
    rw [renderLoop, List.mem_append] at hm
    rcases hm with hm | hm
    · simp only [stepEvents, draw_image, List.mem_cons] at hm
      rcases hm with hm | hm
      · exact absurd hm (by simp)
      · rcases Classical.em (i % L.tpp = L.tpp - 1 ∨ i = total - 1) with hb | hb
        · rw [if_pos hb, List.mem_append] at hm
          rcases hm with hm | hm
          · rcases Classical.em (L.dg = true) with hd | hd
            · rw [if_pos hd, List.mem_append] at hm
              rcases hm with hm | hm
              · left
                simp only [vertGuidelines, List.mem_map, List.mem_range] at hm
                obtain ⟨c, -, hc⟩ := hm
                simp only [fill_rect, Ev.rect.injEq] at hc
                exact hc.2.2.1.symm
              · right
                simp only [horizGuidelines, List.mem_map, List.mem_range] at hm
                obtain ⟨c, -, hc⟩ := hm
                simp only [fill_rect, Ev.rect.injEq] at hc
                exact hc.2.2.2.symm
            · rw [if_neg hd] at hm
              simp at hm
          · simp at hm
        · rw [if_neg hb] at hm
          simp at hm
    · exact ih (i + 1) hm

/-! ## `create_pdf` level -/

lemma create_pdf_def (items : List (ℕ × ℕ)) (po : String) (dg rm : Bool)
    (mode : String) (cs : Option (ℚ × ℚ)) :
    create_pdf items po dg rm mode cs
      = renderLoop (layoutOf po dg rm mode cs) (flattenItems items).length 0
          (flattenItems items) := rfl

lemma gapOf_nonneg (rm : Bool) : 0 ≤ gapOf rm := by
  cases rm <;> norm_num [gapOf, mm]

/-- The image placements of a whole `create_pdf` run: the `i`-th flattened
image is placed according to `placedAt` at global index `i`. -/
lemma imagePlacements_create_pdf (items : List (ℕ × ℕ)) (po : String) (dg rm : Bool)
    (mode : String) (cs : Option (ℚ × ℚ)) :
    imagePlacements 0 (create_pdf items po dg rm mode cs)
      = (flattenItems items).enum.map
          (fun p => placedAt (layoutOf po dg rm mode cs) p.1 p.2) := by
  have h := imagePlacements_renderLoop (layoutOf po dg rm mode cs)
    (layoutOf_tpp_pos po dg rm mode cs) (flattenItems items) 0
    (flattenItems items).length (by simp)
  rw [Nat.zero_div] at h
  rw [create_pdf_def]
  exact h

/-- Concrete geometry for an A4 page with the standard card size and the
margin kept: 3 × 3 grid, gap `1mm = 360/127` points, card 180 × 252 points,
page 75600/127 × 106920/127 points. -/
lemma layoutOf_A4_std_margin (dg : Bool) :
    layoutOf "A4" dg false "標準サイズ" none
      = ⟨(75600/127, 106920/127), 180, 252, 360/127, 360/127, 3, 3, dg⟩ := by
  rw [layoutOf, pageSizeOf, if_neg (by decide), cardSize, if_pos rfl, gapOf]
  norm_num [portrait, A4, mm, grid_x, grid_y]
  rfl

/-- Concrete geometry for an A4 page with the standard card size and the
margin removed: 3 × 3 grid, gap `0`. -/
lemma layoutOf_A4_std_nomargin (dg : Bool) :
    layoutOf "A4" dg true "標準サイズ" none
      = ⟨(75600/127, 106920/127), 180, 252, 0, 0, 3, 3, dg⟩ := by
  rw [layoutOf, pageSizeOf, if_neg (by decide), cardSize, if_pos rfl, gapOf]
  norm_num [portrait, A4, mm, grid_x, grid_y]
  rfl

/-! ## Claims -/

/-- C2: For every page physical size `(W, H)`, card size `(cw, ch)` with
`cw > 0` and `ch > 0`, and gap `g ≥ 0`, the computed grid is
`columns = ⌊(W + g) / (cw + g)⌋` and `rows = ⌊(H + g) / (ch + g)⌋`, each
clamped to a minimum of 1, so `columns ≥ 1` and `rows ≥ 1` always hold,
including when the card is larger than the page. -/
theorem grid_formula_clamped_min_one (W H cw ch g : ℚ)
    (hcw : 0 < cw) (hch : 0 < ch) (hg : 0 ≤ g) :
    grid_x W cw g = max 1 ⌊(W + g) / (cw + g)⌋ ∧
    grid_y H ch g = max 1 ⌊(H + g) / (ch + g)⌋ ∧
    1 ≤ grid_x W cw g ∧ 1 ≤ grid_y H ch g := by
  refine ⟨?_, ?_, grid_x_ge_one W cw g, grid_y_ge_one H ch g⟩
  · simp only [grid_x]
    split <;> omega
  · simp only [grid_y]
    split <;> omega

/-- Witness for C2 at the physical A4/standard-card dimensions in
millimetres with a 1mm gap. -/
theorem grid_formula_clamped_min_one_witness :
    grid_x 210 63.5 1 = max 1 ⌊((210 : ℚ) + 1) / (63.5 + 1)⌋ ∧
    grid_y 297 88.9 1 = max 1 ⌊((297 : ℚ) + 1) / (88.9 + 1)⌋ ∧
    1 ≤ grid_x 210 63.5 1 ∧ 1 ≤ grid_y 297 88.9 1 :=
  grid_formula_clamped_min_one 210 297 63.5 88.9 1 (by norm_num) (by norm_num)
    (by norm_num)

/-- C3: For every ordered list of `(image, copies)` pairs, the images drawn
by `create_pdf` are the contiguous expansion of each item repeated `copies`
times in input order, and their number is the sum of the copies. -/
theorem placements_are_contiguous_expansion (items : List (ℕ × ℕ)) (po : String)
    (dg rm : Bool) (mode : String) (cs : Option (ℚ × ℚ)) :
    drawnImages (create_pdf items po dg rm mode cs)
        = items.flatMap (fun p => List.replicate p.2 p.1) ∧
    (drawnImages (create_pdf items po dg rm mode cs)).length
        = (items.map fun p => p.2).sum := by
  have h : drawnImages (create_pdf items po dg rm mode cs) = flattenItems items := by
    rw [create_pdf_def]
    exact drawnImages_renderLoop _ _ _ 0
  exact ⟨by rw [h, flattenItems_eq_flatMap], by rw [h, flattenItems_length]⟩

/-- C4: For every global placement index `i`, with
`slotsPerPage = columns × rows`, the `i`-th image draw of a `create_pdf` run
lands on page `i / slotsPerPage` (that many page commits precede it), in
column `i % slotsPerPage % columns` and row `i % slotsPerPage / columns`
(row-major, left-to-right, top-to-bottom): its top-left corner is
`(col * (cw + gap), row * (ch + gap))`, stored in backend coordinates. -/
theorem placement_page_col_row_formulas (items : List (ℕ × ℕ)) (po : String)
    (dg rm : Bool) (mode : String) (cs : Option (ℚ × ℚ)) :
    imagePlacements 0 (create_pdf items po dg rm mode cs)
      = (flattenItems items).enum.map (fun p =>
          let L := layoutOf po dg rm mode cs
          let slotsPerPage := L.gx * L.gy
          { page := p.1 / slotsPerPage
            img := p.2
            x := (↑(p.1 % slotsPerPage % L.gx) : ℚ) * (L.cw + L.hGap)
            y := L.ps.2 - (↑(p.1 % slotsPerPage / L.gx) : ℚ) * (L.ch + L.vGap) - L.ch
            w := L.cw
            h := L.ch }) := by
  rw [imagePlacements_create_pdf]
  rfl

/-- C5: the number of committed pages of a `create_pdf` run is
`⌈Σcopies / slotsPerPage⌉` (in particular 0 when `Σcopies = 0`), and the
commits happen exactly at the page boundaries: the last slot of a page or
the last placement of the whole run. -/
theorem page_count_is_ceil (items : List (ℕ × ℕ)) (po : String)
    (dg rm : Bool) (mode : String) (cs : Option (ℚ × ℚ)) :
    showPageCount (create_pdf items po dg rm mode cs)
        = ((items.map fun p => p.2).sum + (layoutOf po dg rm mode cs).tpp - 1)
            / (layoutOf po dg rm mode cs).tpp ∧
    ((items.map fun p => p.2).sum = 0 →
      showPageCount (create_pdf items po dg rm mode cs) = 0) ∧
    showPageCount (create_pdf items po dg rm mode cs)
      = (flattenItems items).enum.countP
          (fun p => decide (p.1 % (layoutOf po dg rm mode cs).tpp
              = (layoutOf po dg rm mode cs).tpp - 1
            ∨ p.1 = (flattenItems items).length - 1)) := by
  set L := layoutOf po dg rm mode cs with hLdef
  set total := (items.map fun p => p.2).sum with htotdef
  have ht : 1 ≤ L.tpp := layoutOf_tpp_pos po dg rm mode cs
  have hlen : (flattenItems items).length = total := flattenItems_length items
  have hmain : showPageCount (create_pdf items po dg rm mode cs)
      = (total + L.tpp - 1) / L.tpp := by
    rw [create_pdf_def,
      showPageCount_renderLoop L ht (flattenItems items) 0 (flattenItems items).length
        (by simp)]
    by_cases hf : flattenItems items = []
    · rw [if_pos hf]
      have : total = 0 := by rw [← hlen, hf]; rfl
      rw [this, Nat.zero_add, Nat.div_eq_of_lt (by omega)]
    · rw [if_neg hf, Nat.zero_div, Nat.sub_zero, hlen]
  refine ⟨hmain, ?_, ?_⟩
  · intro h0
    rw [hmain, h0, Nat.zero_add, Nat.div_eq_of_lt (by omega)]
  · rw [create_pdf_def, showPageCount_renderLoop_boundary L (flattenItems items).length
      (flattenItems items) 0]
    rfl

/-- Witness for C5 at an empty item list: zero copies give zero pages. -/
theorem page_count_is_ceil_witness :
    showPageCount (create_pdf [] "A4" true false "標準サイズ" none) = 0 :=
  (page_count_is_ceil [] "A4" true false "標準サイズ" none).2.1 rfl

/-- C1 is false on the code as stated: a `create_pdf` run with the margin
removed (gap `= 0`) and the guideline flag still true issues 8 guideline
`fillRect` calls on its single page ((3+1) vertical + (3+1) horizontal),
not zero — the loops of lines 80-92 run regardless of the gap, only with
degenerate zero-thickness rectangles. -/
theorem gap_zero_still_issues_guideline_rects :
    gapOf true = 0 ∧
    rectCount (create_pdf [(0, 1)] "A4" true true "標準サイズ" none) = 8 := by
  refine ⟨rfl, ?_⟩
  rw [create_pdf_def, rectCount_renderLoop_dg _ rfl _ _ 0,
    showPageCount_renderLoop _ (layoutOf_tpp_pos _ _ _ _ _) _ 0 _ (by simp),
    layoutOf_A4_std_nomargin]
  norm_num [Layout.tpp, flattenItems]

/-- C1, amended: `create_pdf` itself does not suppress guidelines at gap 0 —
with `drawGuidelines = true` and the margin removed it still issues the
guideline `fillRect` calls, but each such rectangle is degenerate (zero
width or zero height).  Zero guideline rectangles are issued exactly when
`drawGuidelines = false`, and the GUI's `update_options` forces that flag
to false whenever the margin is removed. -/
theorem guidelines_suppressed_only_via_flag :
    (∀ (items : List (ℕ × ℕ)) (po : String) (rm : Bool) (mode : String)
        (cs : Option (ℚ × ℚ)),
        rectCount (create_pdf items po false rm mode cs) = 0) ∧
    (∀ (items : List (ℕ × ℕ)) (po mode : String) (cs : Option (ℚ × ℚ)) (x y w h : ℚ),
        Ev.rect x y w h ∈ create_pdf items po true true mode cs → w = 0 ∨ h = 0) ∧
    (∀ (items : List (ℕ × ℕ)) (po : String) (g : Bool) (mode : String)
        (cs : Option (ℚ × ℚ)),
        rectCount (create_pdf items po (update_options true g) true mode cs) = 0) := by
  refine ⟨?_, ?_, ?_⟩
  · intro items po rm mode cs
    rw [create_pdf_def]
    exact rectCount_renderLoop_nodg _ rfl _ _ 0
  · intro items po mode cs x y w h hm
    rw [create_pdf_def] at hm
    have h2 := rect_mem_renderLoop _ _ x y w h _ 0 hm
    simpa [layoutOf, gapOf] using h2
  · intro items po g mode cs
    rw [create_pdf_def]
    exact rectCount_renderLoop_nodg _ rfl _ _ 0

/-- Witness for the amended C1: the first vertical guideline rectangle of a
gap-0 run is a concrete member of the trace and has zero width. -/
theorem guidelines_suppressed_only_via_flag_witness :
    (0 : ℚ) = 0 ∨ (106920 / 127 : ℚ) = 0 :=
  guidelines_suppressed_only_via_flag.2.1 [(0, 1)] "A4" "標準サイズ" none
    0 0 0 (106920 / 127) (by
      rw [create_pdf_def, layoutOf_A4_std_nomargin]
      simp [renderLoop, stepEvents, vertGuidelines, horizGuidelines, fill_rect,
        draw_image, Layout.tpp, x_start, y_start, flattenItems, List.range_succ])

/-- C6 is false on the code as stated: `create_pdf` performs no validation
of the copy counts; a run whose first item has `copies = 0 < 1` is not
rejected — the remaining item is drawn and a page is committed. -/
theorem zero_copies_item_run_not_rejected :
    drawnImages (create_pdf [(5, 0), (7, 1)] "A4" true false "標準サイズ" none) = [7] ∧
    showPageCount (create_pdf [(5, 0), (7, 1)] "A4" true false "標準サイズ" none) = 1 := by
  have ht : 1 ≤ (layoutOf "A4" true false "標準サイズ" none).tpp :=
    layoutOf_tpp_pos _ _ _ _ _
  constructor
  · rw [create_pdf_def, drawnImages_renderLoop]
    rfl
  · rw [create_pdf_def,
      showPageCount_renderLoop _ ht (flattenItems [(5, 0), (7, 1)]) 0 _ (by simp)]
    have hf : flattenItems [(5, 0), (7, 1)] = [7] := rfl
    rw [hf]
    simp only [List.length_cons, List.length_nil]
    rw [if_neg (by simp)]
    have h1 : 0 + 1 + (layoutOf "A4" true false "標準サイズ" none).tpp - 1
        = (layoutOf "A4" true false "標準サイズ" none).tpp := by omega
    rw [h1, Nat.div_self (by omega), Nat.zero_div]

/-- C6, amended: an item with `copies = 0` (the only value `< 1` in the
model, matching Python's empty `[image] * qty` for `qty < 1`) is not
rejected: it simply contributes zero placements, and the run is identical
to the run without that item. -/
theorem zero_copies_item_skipped (l1 l2 : List (ℕ × ℕ)) (img : ℕ) (po : String)
    (dg rm : Bool) (mode : String) (cs : Option (ℚ × ℚ)) :
    create_pdf (l1 ++ (img, 0) :: l2) po dg rm mode cs
      = create_pdf (l1 ++ l2) po dg rm mode cs := by
  have hf : flattenItems (l1 ++ (img, 0) :: l2) = flattenItems (l1 ++ l2) := by
    induction l1 with
    | nil => rfl
    | cons a rest ih =>
      cases a with
      | mk ai aq => simp [flattenItems, ih]
  rw [create_pdf_def, create_pdf_def, hf]

/-- C7: each vertical guideline rectangle has width `gap` and the full page
height; for `col = c + 1 ≥ 1` its left edge is the right edge of card
column `c` and its right edge is the left edge of card column `c + 1` (the
boundary strip between the two columns); for `col = 0` it sits at the left
edge of the grid, `x = 0`.  Horizontal guidelines are positioned
analogously, spanning the full page width. -/
theorem guideline_rect_geometry (ps : ℚ × ℚ) (cw ch hGap vGap : ℚ) (gx gy : ℕ) :
    (∀ col ≤ gx, ∃ x_line : ℚ,
      (vertGuidelines ps cw hGap gx)[col]? = some (fill_rect ps x_line 0 hGap ps.2) ∧
      (col = 0 → x_line = 0) ∧
      (∀ c : ℕ, col = c + 1 →
        x_line = (c : ℚ) * (cw + hGap) + cw ∧
        x_line + hGap = ((c : ℚ) + 1) * (cw + hGap))) ∧
    (∀ row ≤ gy, ∃ y_line : ℚ,
      (horizGuidelines ps ch vGap gy)[row]? = some (fill_rect ps 0 y_line ps.1 vGap) ∧
      (row = 0 → y_line = 0) ∧
      (∀ r : ℕ, row = r + 1 →
        y_line = (r : ℚ) * (ch + vGap) + ch ∧
        y_line + vGap = ((r : ℚ) + 1) * (ch + vGap))) := by
  constructor
  · intro col hcol
    refine ⟨if col = 0 then x_start else x_start + (col : ℚ) * (cw + hGap) - hGap,
      ?_, ?_, ?_⟩
    · simp [vertGuidelines, List.getElem?_map, List.getElem?_range,
        Nat.lt_succ_of_le hcol]
    · intro h0
      simp [h0, x_start]
    · intro c hc
      subst hc
      rw [if_neg (Nat.succ_ne_zero c)]
      constructor
      · simp only [x_start]
        push_cast
        ring
      · simp only [x_start]
        push_cast
        ring
  · intro row hrow
    refine ⟨if row = 0 then y_start else y_start + (row : ℚ) * (ch + vGap) - vGap,
      ?_, ?_, ?_⟩
    · simp [horizGuidelines, List.getElem?_map, List.getElem?_range,
        Nat.lt_succ_of_le hrow]
    · intro h0
      simp [h0, y_start]
    · intro r hr
      subst hr
      rw [if_neg (Nat.succ_ne_zero r)]
      constructor
      · simp only [y_start]
        push_cast
        ring
      · simp only [y_start]
        push_cast
        ring

/-- Witness for C7 on a concrete 2 × 2 grid (page 10 × 20, card 3 × 4,
gap 1) at the interior vertical guideline `col = 1`. -/
theorem guideline_rect_geometry_witness :
    ∃ x_line : ℚ,
      (vertGuidelines (10, 20) 3 1 2)[1]? = some (fill_rect (10, 20) x_line 0 1 20) ∧
      ((1 : ℕ) = 0 → x_line = 0) ∧
      (∀ c : ℕ, 1 = c + 1 →
        x_line = (c : ℚ) * (3 + 1) + 3 ∧
        x_line + 1 = ((c : ℚ) + 1) * (3 + 1)) :=
  (guideline_rect_geometry (10, 20) 3 4 1 1 2 2).1 1 (by norm_num)

/-- C8: with guidelines on and the margin kept (gap `1mm > 0`), each page
commit is preceded by exactly `columns + 1` vertical and `rows + 1`
horizontal guideline rectangles: the vertical and horizontal guideline
batches have those lengths and the total rectangle count of the run is the
page count times `(columns + 1) + (rows + 1)`. -/
theorem guideline_counts_per_page (items : List (ℕ × ℕ)) (po mode : String)
    (cs : Option (ℚ × ℚ)) :
    0 < gapOf false ∧
    rectCount (create_pdf items po true false mode cs)
      = showPageCount (create_pdf items po true false mode cs)
          * (((layoutOf po true false mode cs).gx + 1)
            + ((layoutOf po true false mode cs).gy + 1)) ∧
    (vertGuidelines (layoutOf po true false mode cs).ps
        (layoutOf po true false mode cs).cw (layoutOf po true false mode cs).hGap
        (layoutOf po true false mode cs).gx).length
      = (layoutOf po true false mode cs).gx + 1 ∧
    (horizGuidelines (layoutOf po true false mode cs).ps
        (layoutOf po true false mode cs).ch (layoutOf po true false mode cs).vGap
        (layoutOf po true false mode cs).gy).length
      = (layoutOf po true false mode cs).gy + 1 := by
  refine ⟨by norm_num [gapOf, mm], ?_, vertGuidelines_length _ _ _ _,
    horizGuidelines_length _ _ _ _⟩
  rw [create_pdf_def, rectCount_renderLoop_dg (layoutOf po true false mode cs) rfl _ _ 0,
    Nat.mul_comm]

/-- C9: the top-left-origin to bottom-left-origin conversion
`y ↦ pageHeight - y - h` (with `x` unchanged) is applied uniformly by the
two drawing helpers — `draw_image` and `fill_rect` both pass exactly the
converted rectangle to the backend — and every image placement of a
`create_pdf` run stores the conversion of its top-left rectangle
`(col * (cw + gap), row * (ch + gap), cw, ch)`.  The generator is a pure
function: two runs on identical `(items, config)` yield the identical
event trace, hence identical page counts and placement geometry. -/
theorem uniform_coordinate_conversion_and_determinism :
    (∀ (ps : ℚ × ℚ) (img : ℕ) (x y w h : ℚ),
      draw_image ps img x y w h = Ev.image img x (topLeftToBottom ps.2 y h) w h) ∧
    (∀ (ps : ℚ × ℚ) (x y w h : ℚ),
      fill_rect ps x y w h = Ev.rect x (topLeftToBottom ps.2 y h) w h) ∧
    (∀ (items : List (ℕ × ℕ)) (po : String) (dg rm : Bool) (mode : String)
        (cs : Option (ℚ × ℚ)),
      imagePlacements 0 (create_pdf items po dg rm mode cs)
        = (flattenItems items).enum.map (fun p =>
            let L := layoutOf po dg rm mode cs
            { page := p.1 / L.tpp
              img := p.2
              x := (↑(p.1 % L.tpp % L.gx) : ℚ) * (L.cw + L.hGap)
              y := topLeftToBottom L.ps.2 ((↑(p.1 % L.tpp / L.gx) : ℚ) * (L.ch + L.vGap)) L.ch
              w := L.cw
              h := L.ch })) ∧
    (∀ (items : List (ℕ × ℕ)) (po : String) (dg rm : Bool) (mode : String)
        (cs : Option (ℚ × ℚ)),
      create_pdf items po dg rm mode cs = create_pdf items po dg rm mode cs ∧
      showPageCount (create_pdf items po dg rm mode cs)
        = showPageCount (create_pdf items po dg rm mode cs)) := by
  refine ⟨fun ps img x y w h => rfl, fun ps x y w h => rfl, ?_,
    fun items po dg rm mode cs => ⟨rfl, rfl⟩⟩
  intro items po dg rm mode cs
  rw [imagePlacements_create_pdf]
  rfl

/-- C10: whenever the unclamped grid formula already yields at least one
column and one row (the card fits on the page), every placement of a
`create_pdf` run stays inside the page: its slot `(col, row)` satisfies
`col * (cw + g) + cw ≤ W` and `row * (ch + g) + ch ≤ H`. -/
theorem placements_within_page_bounds (items : List (ℕ × ℕ)) (po : String)
    (dg rm : Bool) (mode : String) (cs : Option (ℚ × ℚ))
    (hcw : 0 < (cardSize mode cs).1) (hch : 0 < (cardSize mode cs).2)
    (hgx : 1 ≤ ⌊((pageSizeOf po).1 + gapOf rm) / ((cardSize mode cs).1 + gapOf rm)⌋)
    (hgy : 1 ≤ ⌊((pageSizeOf po).2 + gapOf rm) / ((cardSize mode cs).2 + gapOf rm)⌋) :
    ∀ p ∈ imagePlacements 0 (create_pdf items po dg rm mode cs),
      ∃ col row : ℕ,
        p.x = (col : ℚ) * ((cardSize mode cs).1 + gapOf rm) ∧
        p.y = (pageSizeOf po).2
          - (row : ℚ) * ((cardSize mode cs).2 + gapOf rm) - (cardSize mode cs).2 ∧
        (col : ℚ) * ((cardSize mode cs).1 + gapOf rm) + (cardSize mode cs).1
          ≤ (pageSizeOf po).1 ∧
        (row : ℚ) * ((cardSize mode cs).2 + gapOf rm) + (cardSize mode cs).2
          ≤ (pageSizeOf po).2 := by
  intro p hp
  rw [imagePlacements_create_pdf] at hp
  obtain ⟨q, -, rfl⟩ := List.mem_map.1 hp
  set L := layoutOf po dg rm mode cs with hL
  have hgxpos : 1 ≤ L.gx := layoutOf_gx_pos po dg rm mode cs
  have hgypos : 1 ≤ L.gy := layoutOf_gy_pos po dg rm mode cs
  have htpp : 1 ≤ L.tpp := layoutOf_tpp_pos po dg rm mode cs
  have hg0 : 0 ≤ gapOf rm := gapOf_nonneg rm
  have hcwg : 0 < (cardSize mode cs).1 + gapOf rm := by linarith
  have hchg : 0 < (cardSize mode cs).2 + gapOf rm := by linarith
  refine ⟨q.1 % L.tpp % L.gx, q.1 % L.tpp / L.gx, rfl, rfl, ?_, ?_⟩
  · -- columns stay within the page width
    have hgxval : (L.gx : ℤ)
        = ⌊((pageSizeOf po).1 + gapOf rm) / ((cardSize mode cs).1 + gapOf rm)⌋ := by
      have h1 : grid_x (pageSizeOf po).1 (cardSize mode cs).1 (gapOf rm)
          = ⌊((pageSizeOf po).1 + gapOf rm) / ((cardSize mode cs).1 + gapOf rm)⌋ := by
        simp only [grid_x]
        rw [if_neg (by omega)]
      have h2 : L.gx
          = (grid_x (pageSizeOf po).1 (cardSize mode cs).1 (gapOf rm)).toNat := rfl
      rw [h2, h1]
      exact Int.toNat_of_nonneg (by omega)
    have hfl : ((L.gx : ℤ) : ℚ)
        ≤ ((pageSizeOf po).1 + gapOf rm) / ((cardSize mode cs).1 + gapOf rm) := by
      rw [hgxval]
      exact Int.floor_le _
    have hcol : q.1 % L.tpp % L.gx < L.gx := Nat.mod_lt _ (by omega)
    have hcolq : ((q.1 % L.tpp % L.gx : ℕ) : ℚ) + 1 ≤ ((L.gx : ℕ) : ℚ) := by
      exact_mod_cast hcol
    have h3 : (((q.1 % L.tpp % L.gx : ℕ) : ℚ) + 1) * ((cardSize mode cs).1 + gapOf rm)
        ≤ (pageSizeOf po).1 + gapOf rm := by
      have h4 := mul_le_mul_of_nonneg_right
        (le_trans hcolq (by exact_mod_cast hfl)) (le_of_lt hcwg)
      rwa [div_mul_cancel₀ _ (ne_of_gt hcwg)] at h4
    nlinarith [h3]
  · -- rows stay within the page height
    have hgyval : (L.gy : ℤ)
        = ⌊((pageSizeOf po).2 + gapOf rm) / ((cardSize mode cs).2 + gapOf rm)⌋ := by
      have h1 : grid_y (pageSizeOf po).2 (cardSize mode cs).2 (gapOf rm)
          = ⌊((pageSizeOf po).2 + gapOf rm) / ((cardSize mode cs).2 + gapOf rm)⌋ := by
        simp only [grid_y]
        rw [if_neg (by omega)]
      have h2 : L.gy
          = (grid_y (pageSizeOf po).2 (cardSize mode cs).2 (gapOf rm)).toNat := rfl
      rw [h2, h1]
      exact Int.toNat_of_nonneg (by omega)
    have hfl : ((L.gy : ℤ) : ℚ)
        ≤ ((pageSizeOf po).2 + gapOf rm) / ((cardSize mode cs).2 + gapOf rm) := by
      rw [hgyval]
      exact Int.floor_le _
    have hrow : q.1 % L.tpp / L.gx < L.gy := by
      have hmod : q.1 % L.tpp < L.tpp := Nat.mod_lt _ (by omega)
      have : q.1 % L.tpp < L.gy * L.gx := by
        rw [Nat.mul_comm]
        exact hmod
      exact (Nat.div_lt_iff_lt_mul (by omega)).2 this
    have hrowq : ((q.1 % L.tpp / L.gx : ℕ) : ℚ) + 1 ≤ ((L.gy : ℕ) : ℚ) := by
      exact_mod_cast hrow
    have h3 : (((q.1 % L.tpp / L.gx : ℕ) : ℚ) + 1) * ((cardSize mode cs).2 + gapOf rm)
        ≤ (pageSizeOf po).2 + gapOf rm := by
      have h4 := mul_le_mul_of_nonneg_right
        (le_trans hrowq (by exact_mod_cast hfl)) (le_of_lt hchg)
      rwa [div_mul_cancel₀ _ (ne_of_gt hchg)] at h4
    nlinarith [h3]

/-- Witness for C10: the single placement of a one-card A4/standard run
with the margin kept lies within the page bounds. -/
theorem placements_within_page_bounds_witness :
    ∃ col row : ℕ,
      (⟨0, 0, 0, 74916 / 127, 180, 252⟩ : Placed).x
        = (col : ℚ) * ((cardSize "標準サイズ" none).1 + gapOf false) ∧
      (⟨0, 0, 0, 74916 / 127, 180, 252⟩ : Placed).y
        = (pageSizeOf "A4").2
          - (row : ℚ) * ((cardSize "標準サイズ" none).2 + gapOf false)
          - (cardSize "標準サイズ" none).2 ∧
      (col : ℚ) * ((cardSize "標準サイズ" none).1 + gapOf false)
          + (cardSize "標準サイズ" none).1 ≤ (pageSizeOf "A4").1 ∧
      (row : ℚ) * ((cardSize "標準サイズ" none).2 + gapOf false)
          + (cardSize "標準サイズ" none).2 ≤ (pageSizeOf "A4").2 :=
  placements_within_page_bounds [(0, 1)] "A4" true false "標準サイズ" none
    (by norm_num [cardSize, mm])
    (by norm_num [cardSize, mm])
    (by
      rw [pageSizeOf, if_neg (show ¬("A4" = "A3") by decide)]
      norm_num [portrait, A4, cardSize, gapOf, mm])
    (by
      rw [pageSizeOf, if_neg (show ¬("A4" = "A3") by decide)]
      norm_num [portrait, A4, cardSize, gapOf, mm])
    ⟨0, 0, 0, 74916 / 127, 180, 252⟩
    (by
      rw [imagePlacements_create_pdf, layoutOf_A4_std_margin]
      simp [flattenItems, placedAt, Layout.tpp]
      norm_num)

end Proxy
